import Mathlib

/-!
# Verification of the legacy Mina user-command signing module

Shallow embedding of `sign-legacy` (payments, stake delegations, and raw
strings): the JSON → domain translation, the canonical legacy hash-input
encoder, and the signing/verification orchestration, together with proofs of
the specified properties.

External collaborators that the module consumes through narrow interfaces
(the bit/field hash-input accumulator, fixed-width integer codecs, the base58
key codec, the memo byte-encoder, and the domain-separated Schnorr-style
sign/verify primitive) are modelled from the specification's description of
those interfaces; the module's own functions are translated from the source.
-/

namespace SignLegacy

/-- Error kinds surfaced by translation / decoding, from the error-handling
design: `MalformedKey`, `MalformedNumeric`, `MalformedSignature`,
`InvalidMemo`. -/
inductive Err where
  | malformedKey
  | malformedNumeric
  | malformedSignature
  | invalidMemo
  deriving DecidableEq, Repr

/-- Modelled from the spec: the hash-input accumulator holds an ordered
sequence of heterogeneous typed chunks — field elements and bit vectors.
Field elements are represented by their natural-number value. -/
inductive Chunk where
  | field (x : Nat)
  | bits (bs : List Bool)
  deriving DecidableEq, Repr

/-- Modelled from the spec: a hash input is the ordered sequence of chunks
fed to the signing primitive. -/
abbrev HashInputLegacy := List Chunk

/-- Modelled from the spec: `HashInputLegacy.append` is the ordered
concatenation operation — it preserves element order, first argument's
chunks first. -/
def HashInputLegacy.append (i1 i2 : HashInputLegacy) : HashInputLegacy :=
  i1 ++ i2

/-- Modelled from the spec: `HashInputLegacy.bits` wraps a bit vector as a
single chunk. -/
def HashInputLegacy.ofBits (bs : List Bool) : HashInputLegacy :=
  [Chunk.bits bs]

/-- Modelled from the spec: little-endian bit decomposition at a fixed width,
the canonical bit order of the fixed-width unsigned integer codec
(`UInt64.toBits` / `UInt32.toBits`). -/
def toBitsLE (w n : Nat) : List Bool :=
  (List.range w).map n.testBit

/-- Modelled from the spec: the curve/base58 primitives are external; a
public key (compressed curve point) is modelled as an element of the toy
cyclic group ⟨2⟩ ≤ (ZMod 23)ˣ of prime order 11 used by the Schnorr-style
primitive below. -/
abbrev PublicKey := ZMod 23

/-- Modelled from the spec: a private key is a scalar, an element of the
scalar field of the (toy) group, of prime order 11. -/
abbrev PrivateKey := ZMod 11

/-- Modelled from the spec: `PublicKey.toInputLegacy` is the curve point in
its canonical field-decomposed bit form — the x-field element followed by the
single odd-y bit. -/
def PublicKey.toInputLegacy (pk : PublicKey) : HashInputLegacy :=
  [Chunk.field pk.val, Chunk.bits [decide (pk.val % 2 = 1)]]

/-- The two user-command variants; each has a fixed small-integer code
(`Payment = 0`, `StakeDelegation = 1`) used only for encoding. -/
inductive Tag where
  | payment
  | stakeDelegation
  deriving DecidableEq, Repr

/-- The fixed small-integer code of a tag, from the lookup
`{ Payment: 0, StakeDelegation: 1 }[tag]` in the source. -/
def Tag.code : Tag → Nat
  | .payment => 0
  | .stakeDelegation => 1

/-- Shared transaction header. The memo is held in its already-encoded
fixed-length byte form (bytes as naturals below 256). -/
structure Common where
  fee : Nat
  feePayer : PublicKey
  nonce : Nat
  validUntil : Nat
  memo : List Nat
  deriving DecidableEq, Repr

/-- Command body: tag, source and receiver accounts, amount. -/
structure Body where
  tag : Tag
  source : PublicKey
  receiver : PublicKey
  amount : Nat
  deriving DecidableEq, Repr

/-- A user command: common header plus body. -/
structure UserCommand where
  common : Common
  body : Body
  deriving DecidableEq, Repr

/-- `tagToInput`: 3-bit chunk `[int & 4, int & 2, int & 1].map(Boolean)`
(JavaScript `Boolean` of a number is `≠ 0`). -/
def tagToInput (tag : Tag) : HashInputLegacy :=
  let int := tag.code
  let bs := [decide (int &&& 4 ≠ 0), decide (int &&& 2 ≠ 0), decide (int &&& 1 ≠ 0)]
  HashInputLegacy.ofBits bs

/-- `legacyTokenId = [true, ...Array(63).fill(false)]`. -/
def legacyTokenId : List Bool :=
  true :: List.replicate 63 false

/-- Modelled from the spec: `Memo.toBits`, the bit form of the fixed-length
memo byte encoding — each byte decomposed into its 8 bits. -/
def Memo.toBits (memo : List Nat) : List Bool :=
  memo.flatMap (toBitsLE 8)

/-- `bodyToInputLegacy`: tag, source, receiver, token id, amount,
token-locked flag, appended in order (`reduce(HashInputLegacy.append)`). -/
def bodyToInputLegacy (b : Body) : HashInputLegacy :=
  [ tagToInput b.tag,
    PublicKey.toInputLegacy b.source,
    PublicKey.toInputLegacy b.receiver,
    HashInputLegacy.ofBits legacyTokenId,
    HashInputLegacy.ofBits (toBitsLE 64 b.amount),
    HashInputLegacy.ofBits [false]
  ].foldl HashInputLegacy.append []

/-- `commonToInputLegacy`: fee, token id, fee payer, nonce, valid-until,
memo, appended in order (`reduce(HashInputLegacy.append)`). -/
def commonToInputLegacy (c : Common) : HashInputLegacy :=
  [ HashInputLegacy.ofBits (toBitsLE 64 c.fee),
    HashInputLegacy.ofBits legacyTokenId,
    PublicKey.toInputLegacy c.feePayer,
    HashInputLegacy.ofBits (toBitsLE 32 c.nonce),
    HashInputLegacy.ofBits (toBitsLE 32 c.validUntil),
    HashInputLegacy.ofBits (Memo.toBits c.memo)
  ].foldl HashInputLegacy.append []

/-- `toInputLegacy({common, body}) =
HashInputLegacy.append(commonToInputLegacy(common), bodyToInputLegacy(body))`. -/
def toInputLegacy (cmd : UserCommand) : HashInputLegacy :=
  HashInputLegacy.append (commonToInputLegacy cmd.common) (bodyToInputLegacy cmd.body)

/-! ## The string encoding path -/

/-- Modelled from the spec: `stringToBytes` yields the UTF-8 byte sequence of
the input text, each byte as a natural number below 256. -/
def stringToBytes (s : String) : List Nat :=
  s.toUTF8.toList.map (fun b => b.toNat)

/-- Modelled from the spec: `bytesToBits` decomposes each byte into its 8
bits in little-endian order (bit 0 first), the canonical order of the binable
codec; the caller reverses per byte to obtain bit 7 first. -/
def bytesToBits (bytes : List Nat) : List Bool :=
  bytes.flatMap (toBitsLE 8)

/-- `stringToInput`: UTF-8 bytes, each byte's bits reversed
(`bytesToBits([byte]).reverse()`), flattened in byte order, as one bits
chunk. -/
def stringToInput (s : String) : HashInputLegacy :=
  let bits := ((stringToBytes s).map (fun byte => (bytesToBits [byte]).reverse)).flatten
  HashInputLegacy.ofBits bits

/-! ## Decimal string codec

Modelled from the spec: numeric JSON fields are string-encoded numbers parsed
by the fixed-width unsigned integer codec; the base58 key codec and the
signature serialization are likewise modelled over decimal digit strings. -/

/-- The decimal digit character of `d < 10`. -/
def digitChar (d : Nat) : Char :=
  Char.ofNat (48 + d)

/-- The digit value of a decimal digit character, `none` on any other
character. -/
def charDigit (c : Char) : Option Nat :=
  if 48 ≤ c.toNat ∧ c.toNat ≤ 57 then some (c.toNat - 48) else none

/-- The decimal digits of a natural number, most significant first. -/
def natDigits (n : Nat) : List Nat :=
  if _h : n < 10 then [n] else natDigits (n / 10) ++ [n % 10]
decreasing_by exact Nat.div_lt_self (by omega) (by omega)

/-- Render a natural number as a decimal string. -/
def natToString (n : Nat) : String :=
  String.mk ((natDigits n).map digitChar)

/-- Accumulating decimal parse over a character list; fails on any
non-digit. -/
def parseDigitsAux (acc : Nat) : List Char → Option Nat
  | [] => some acc
  | c :: cs =>
    match charDigit c with
    | none => none
    | some d => parseDigitsAux (acc * 10 + d) cs

/-- Parse a decimal string; fails on the empty string and on any non-digit
character. -/
def parseNat (s : String) : Option Nat :=
  match s.data with
  | [] => none
  | l => parseDigitsAux 0 l

/-- Modelled from the spec: the fixed-width unsigned integer codec — parse a
numeric string at an explicit bit width, failing with `MalformedNumeric` on
non-numeric or out-of-range input (`UInt64.fromJSON` / `UInt32.fromJSON`). -/
def parseUInt (w : Nat) (s : String) : Except Err Nat :=
  match parseNat s with
  | none => .error .malformedNumeric
  | some n => if n < 2 ^ w then .ok n else .error .malformedNumeric

/-! ## Key codec -/

/-- Modelled from the spec: serialize a public key to its external string
form (base58 codec, modelled over decimal strings). -/
def pkToBase58 (pk : PublicKey) : String :=
  natToString pk.val

/-- Modelled from the spec: decode a public key from its external string
form; invalid encodings fail with `MalformedKey` (`PublicKey.fromBase58` /
`PublicKey.fromJSON`). -/
def pkFromBase58 (s : String) : Except Err PublicKey :=
  match parseNat s with
  | none => .error .malformedKey
  | some n => if n < 23 then .ok (n : ZMod 23) else .error .malformedKey

/-- Modelled from the spec: decode a private key from its external string
form; invalid encodings fail with `MalformedKey` (`PrivateKey.fromBase58`). -/
def privFromBase58 (s : String) : Except Err PrivateKey :=
  match parseNat s with
  | none => .error .malformedKey
  | some n => if n < 11 then .ok (n : ZMod 11) else .error .malformedKey

/-- Modelled from the spec: the fixed-length memo byte-encoder
(`Memo.fromString`): a tag byte, a length byte, the memo bytes, zero-padded
to 34 bytes total; memos longer than 32 bytes fail with `InvalidMemo`. -/
def Memo.fromBytes (s : List Nat) : Except Err (List Nat) :=
  if s.length ≤ 32 then .ok ([1, s.length] ++ s ++ List.replicate (32 - s.length) 0)
  else .error .invalidMemo

/-! ## JSON shapes and the domain model translator -/

/-- `CommonJson`: string-encoded numeric fields, base58-encoded key field,
memo text (held as its byte sequence). -/
structure CommonJson where
  fee : String
  feePayer : String
  nonce : String
  validUntil : String
  memo : List Nat
  deriving DecidableEq, Repr

/-- The body of `PaymentJson`. -/
structure PaymentBodyJson where
  source : String
  receiver : String
  amount : String
  deriving DecidableEq, Repr

/-- `PaymentJson`. -/
structure PaymentJson where
  common : CommonJson
  body : PaymentBodyJson
  deriving DecidableEq, Repr

/-- The body of `DelegationJson`. The wire type has no amount field; the
optional `amount` models an extraneous field in the source JSON record,
which the translation (a destructuring of only `delegator` and
`newDelegate`) never reads. -/
structure DelegationBodyJson where
  delegator : String
  newDelegate : String
  amount : Option String
  deriving DecidableEq, Repr

/-- `DelegationJson`. -/
structure DelegationJson where
  common : CommonJson
  body : DelegationBodyJson
  deriving DecidableEq, Repr

/-- `commonFromJson`: parse fee, fee payer, nonce, valid-until, encode the
memo. -/
def commonFromJson (c : CommonJson) : Except Err Common := do
  let fee ← parseUInt 64 c.fee
  let feePayer ← pkFromBase58 c.feePayer
  let nonce ← parseUInt 32 c.nonce
  let validUntil ← parseUInt 32 c.validUntil
  let memo ← Memo.fromBytes c.memo
  return { fee, feePayer, nonce, validUntil, memo }

/-- `paymentFromJson`: translate the common part, decode source and
receiver, parse the amount; the tag is `Payment`. -/
def paymentFromJson (j : PaymentJson) : Except Err UserCommand := do
  let common ← commonFromJson j.common
  let source ← pkFromBase58 j.body.source
  let receiver ← pkFromBase58 j.body.receiver
  let amount ← parseUInt 64 j.body.amount
  return { common, body := { tag := .payment, source, receiver, amount } }

/-- `delegationFromJson`: translate the common part, decode delegator
(source) and new delegate (receiver); the tag is `StakeDelegation` and the
amount is `UInt64(0)`. -/
def delegationFromJson (j : DelegationJson) : Except Err UserCommand := do
  let common ← commonFromJson j.common
  let source ← pkFromBase58 j.body.delegator
  let receiver ← pkFromBase58 j.body.newDelegate
  return { common, body := { tag := .stakeDelegation, source, receiver, amount := 0 } }

/-! ## The domain-separated Schnorr-style sign/verify primitive

Modelled from the spec: the primitive is an external collaborator taking the
encoded hash input, a key, and a network-derived domain tag. It is modelled
as deterministic Schnorr over the toy cyclic group ⟨2⟩ ≤ (ZMod 23)ˣ of prime
order 11, with the network tag folded into both the nonce and the challenge
(domain separation). -/

/-- The network identifier parameterizing domain separation. -/
inductive Network where
  | mainnet
  | testnet
  deriving DecidableEq, Repr

/-- The domain-separation tag of a network. -/
def Network.tag : Network → Nat
  | .mainnet => 0
  | .testnet => 1

/-- The group generator: 2 has order 11 in (ZMod 23)ˣ. -/
def gen : ZMod 23 := 2

/-- Exponentiation of the generator by a scalar. -/
def gpow (a : ZMod 11) : ZMod 23 :=
  gen ^ a.val

/-- Public key derivation from a private key (`PrivateKey.toPublicKey`). -/
def derivePublicKey (sk : PrivateKey) : PublicKey :=
  gpow sk

/-- A numeric fingerprint of a bit vector (used by the modelled challenge
hash). -/
def encodeBits (bs : List Bool) : Nat :=
  bs.foldl (fun a b => 2 * a + cond b 1 0) 1

/-- A numeric fingerprint of a chunk. -/
def Chunk.encode : Chunk → Nat
  | .field x => 2 * x
  | .bits bs => 2 * encodeBits bs + 1

/-- A numeric fingerprint of a hash input. -/
def encodeInput (i : HashInputLegacy) : Nat :=
  i.foldl (fun a c => a * 1000003 + c.encode) 7

/-- The Schnorr challenge: a scalar derived from the message, the commitment,
the public key, and the network tag. -/
def hashMessage (input : HashInputLegacy) (r : ZMod 23) (pk : PublicKey)
    (net : Network) : ZMod 11 :=
  ((encodeInput input + 23 * r.val + 529 * pk.val + 12167 * net.tag : Nat) : ZMod 11)

/-- The deterministic signing nonce, derived from the message, the private
key, and the network tag. -/
def deriveNonce (input : HashInputLegacy) (sk : PrivateKey) (net : Network) : ZMod 11 :=
  ((encodeInput input + 13 * sk.val + 169 * net.tag + 1 : Nat) : ZMod 11)

/-- A signature: an opaque pair of a field element and a scalar. -/
structure Signature where
  r : ZMod 23
  s : ZMod 11
  deriving DecidableEq, Repr

/-- `signLegacy`: commitment `R = gᵏ`, challenge `e`, response
`s = k + e·sk`. -/
def signLegacy (input : HashInputLegacy) (sk : PrivateKey) (net : Network) : Signature :=
  let k := deriveNonce input sk net
  let r := gpow k
  let e := hashMessage input r (derivePublicKey sk) net
  ⟨r, k + e * sk⟩

/-- `verifyLegacy`: recompute the challenge and check `gˢ = R · pkᵉ`. -/
def verifyLegacy (sig : Signature) (input : HashInputLegacy) (pk : PublicKey)
    (net : Network) : Bool :=
  let e := hashMessage input sig.r pk net
  decide (gpow sig.s = sig.r * pk ^ e.val)

/-- `SignatureJson`: the signature serialized as two string fields. -/
structure SignatureJson where
  field : String
  scalar : String
  deriving DecidableEq, Repr

/-- `Signature.toJSON`: render both components as strings. -/
def Signature.toJSON (sig : Signature) : SignatureJson :=
  ⟨natToString sig.r.val, natToString sig.s.val⟩

/-- `Signature.fromJSON`: parse both components, failing with
`MalformedSignature` on non-numeric or out-of-range input. -/
def Signature.fromJSON (j : SignatureJson) : Except Err Signature :=
  match parseNat j.field, parseNat j.scalar with
  | some r, some s =>
    if r < 23 ∧ s < 11 then .ok ⟨(r : ZMod 23), (s : ZMod 11)⟩
    else .error .malformedSignature
  | _, _ => .error .malformedSignature

/-! ## The signing/verification orchestrator -/

/-- `signUserCommand`: encode the command, decode the private key
(propagating failure), sign, serialize. -/
def signUserCommand (cmd : UserCommand) (privateKeyBase58 : String)
    (networkId : Network) : Except Err SignatureJson := do
  let input := toInputLegacy cmd
  let privateKey ← privFromBase58 privateKeyBase58
  return Signature.toJSON (signLegacy input privateKey networkId)

/-- `signPayment`: translate the JSON payment, then sign the command. -/
def signPayment (payment : PaymentJson) (privateKeyBase58 : String)
    (networkId : Network) : Except Err SignatureJson := do
  let command ← paymentFromJson payment
  signUserCommand command privateKeyBase58 networkId

/-- `signStakeDelegation`: translate the JSON delegation, then sign the
command. -/
def signStakeDelegation (delegation : DelegationJson) (privateKeyBase58 : String)
    (networkId : Network) : Except Err SignatureJson := do
  let command ← delegationFromJson delegation
  signUserCommand command privateKeyBase58 networkId

/-- `signString`: encode the string, decode the private key (propagating
failure), sign, serialize. -/
def signString (s : String) (privateKeyBase58 : String)
    (networkId : Network) : Except Err SignatureJson := do
  let input := stringToInput s
  let privateKey ← privFromBase58 privateKeyBase58
  return Signature.toJSON (signLegacy input privateKey networkId)

/-- `verifyUserCommand`: encode the command, decode signature and public
key, check; failures propagate to the caller of this inner helper. -/
def verifyUserCommand (cmd : UserCommand) (signatureJson : SignatureJson)
    (publicKeyBase58 : String) (networkId : Network) : Except Err Bool := do
  let input := toInputLegacy cmd
  let signature ← Signature.fromJSON signatureJson
  let publicKey ← pkFromBase58 publicKeyBase58
  return verifyLegacy signature input publicKey networkId

/-- The uncaught verification pipeline of `verifyPayment` (the body of its
`try` block). -/
def verifyPaymentE (payment : PaymentJson) (signatureJson : SignatureJson)
    (publicKeyBase58 : String) (networkId : Network) : Except Err Bool := do
  let command ← paymentFromJson payment
  verifyUserCommand command signatureJson publicKeyBase58 networkId

/-- `verifyPayment`: the pipeline wrapped in `try ... catch { return false }`
— every failure collapses to `false`. -/
def verifyPayment (payment : PaymentJson) (signatureJson : SignatureJson)
    (publicKeyBase58 : String) (networkId : Network) : Bool :=
  match verifyPaymentE payment signatureJson publicKeyBase58 networkId with
  | .ok b => b
  | .error _ => false

/-- The uncaught verification pipeline of `verifyStakeDelegation` (the body
of its `try` block). -/
def verifyStakeDelegationE (delegation : DelegationJson) (signatureJson : SignatureJson)
    (publicKeyBase58 : String) (networkId : Network) : Except Err Bool := do
  let command ← delegationFromJson delegation
  verifyUserCommand command signatureJson publicKeyBase58 networkId

/-- `verifyStakeDelegation`: the pipeline wrapped in
`try ... catch { return false }`. -/
def verifyStakeDelegation (delegation : DelegationJson) (signatureJson : SignatureJson)
    (publicKeyBase58 : String) (networkId : Network) : Bool :=
  match verifyStakeDelegationE delegation signatureJson publicKeyBase58 networkId with
  | .ok b => b
  | .error _ => false

/-- The uncaught verification pipeline of `verifyStringSignature` (the body
of its `try` block). -/
def verifyStringSignatureE (s : String) (signatureJson : SignatureJson)
    (publicKeyBase58 : String) (networkId : Network) : Except Err Bool := do
  let input := stringToInput s
  let signature ← Signature.fromJSON signatureJson
  let publicKey ← pkFromBase58 publicKeyBase58
  return verifyLegacy signature input publicKey networkId

/-- `verifyStringSignature`: the pipeline wrapped in
`try ... catch { return false }`. -/
def verifyStringSignature (s : String) (signatureJson : SignatureJson)
    (publicKeyBase58 : String) (networkId : Network) : Bool :=
  match verifyStringSignatureE s signatureJson publicKeyBase58 networkId with
  | .ok b => b
  | .error _ => false

/-! ## Helper lemmas: `Except` reductions -/

/-- Binding a success reduces to the continuation. -/
theorem okBind {α β : Type} {a : α} {f : α → Except Err β} :
    (Except.ok a >>= f) = f a := rfl

/-- Binding a failure short-circuits. -/
theorem errBind {α β : Type} {e : Err} {f : α → Except Err β} :
    ((Except.error e : Except Err α) >>= f) = Except.error e := rfl

/-- Mapping over a success applies the function. -/
theorem okMap {α β : Type} {a : α} {f : α → β} :
    (f <$> (Except.ok a : Except Err α)) = Except.ok (f a) := rfl

/-- Mapping over a failure short-circuits. -/
theorem errMap {α β : Type} {e : Err} {f : α → β} :
    (f <$> (Except.error e : Except Err α)) = Except.error e := rfl

/-- `pure` is `Except.ok`. -/
theorem pureEq {α : Type} {a : α} : (pure a : Except Err α) = Except.ok a := rfl

/-! ## Helper lemmas: the toy group -/

/-- Exponentiation of the generator is additive in the scalar (the generator
has order 11, which divides out the `ZMod 11` reduction). -/
theorem gpow_add : ∀ a b : ZMod 11, gpow (a + b) = gpow a * gpow b := by
  decide

/-- Exponentiation of the generator turns scalar multiplication into group
exponentiation. -/
theorem gpow_mul : ∀ a b : ZMod 11, gpow (a * b) = gpow b ^ a.val := by
  decide

/-- Schnorr correctness over the modelled group: a signature produced by
`signLegacy` verifies under the derived public key, the same input, and the
same network. -/
theorem verifyLegacy_signLegacy (input : HashInputLegacy) (sk : PrivateKey)
    (net : Network) :
    verifyLegacy (signLegacy input sk net) input (derivePublicKey sk) net = true := by
  simp only [signLegacy, verifyLegacy, decide_eq_true_eq]
  rw [gpow_add, gpow_mul]
  rfl

/-! ## Helper lemmas: the decimal codec round-trip -/

/-- Every decimal digit produced by `natDigits` is below 10. -/
theorem natDigits_lt (n : Nat) : ∀ d ∈ natDigits n, d < 10 := by
  induction n using Nat.strong_induction_on with
  | _ n ih =>
    rw [natDigits]
    split
    · intro d hd
      simp only [List.mem_singleton] at hd
      omega
    · intro d hd
      rw [List.mem_append, List.mem_singleton] at hd
      rcases hd with hd | hd
      · exact ih (n / 10) (Nat.div_lt_self (by omega) (by omega)) d hd
      · omega

/-- `natDigits` never returns the empty list. -/
theorem natDigits_ne_nil (n : Nat) : natDigits n ≠ [] := by
  rw [natDigits]
  split
  · simp
  · simp

/-- Parsing the character of a decimal digit returns that digit. -/
theorem charDigit_digitChar (d : Nat) (h : d < 10) :
    charDigit (digitChar d) = some d := by
  interval_cases d <;> decide

/-- The accumulating parser splits over list concatenation. -/
theorem parseDigitsAux_append (l1 l2 : List Char) (acc : Nat) :
    parseDigitsAux acc (l1 ++ l2) =
      match parseDigitsAux acc l1 with
      | none => none
      | some a => parseDigitsAux a l2 := by
  induction l1 generalizing acc with
  | nil => rfl
  | cons c cs ih =>
    simp only [List.cons_append, parseDigitsAux]
    cases charDigit c with
    | none => rfl
    | some d => exact ih (acc * 10 + d)

/-- Parsing the rendered digits of `n` starting from accumulator `acc`
yields `acc` shifted past those digits, plus `n`. -/
theorem parseDigitsAux_natDigits (n : Nat) : ∀ acc : Nat,
    parseDigitsAux acc ((natDigits n).map digitChar) =
      some (acc * 10 ^ (natDigits n).length + n) := by
  induction n using Nat.strong_induction_on with
  | _ n ih =>
    intro acc
    rw [natDigits]
    split
    · rename_i h
      simp only [List.map_cons, List.map_nil, parseDigitsAux,
        charDigit_digitChar n h, List.length_singleton]
      norm_num
    · rename_i h
      rw [List.map_append, parseDigitsAux_append,
        ih (n / 10) (Nat.div_lt_self (by omega) (by omega)) acc]
      simp only [List.map_cons, List.map_nil, parseDigitsAux,
        charDigit_digitChar (n % 10) (Nat.mod_lt n (by omega)), List.length_append,
        List.length_singleton]
      rw [pow_succ, ← mul_assoc]
      congr 1
      have := Nat.div_add_mod n 10
      set A := acc * 10 ^ (natDigits (n / 10)).length
      omega

/-- Round-trip: parsing a rendered decimal string recovers the number. -/
theorem parseNat_natToString (n : Nat) : parseNat (natToString n) = some n := by
  unfold natToString parseNat
  cases hl : (natDigits n).map digitChar with
  | nil => exact absurd (List.map_eq_nil_iff.mp hl) (natDigits_ne_nil n)
  | cons c cs =>
    show parseDigitsAux 0 (c :: cs) = some n
    rw [← hl, parseDigitsAux_natDigits n 0]
    simp

/-! ## Helper lemmas: key and signature serialization round-trips -/

/-- Decoding a serialized public key recovers it. -/
theorem pkFromBase58_pkToBase58 (pk : PublicKey) :
    pkFromBase58 (pkToBase58 pk) = .ok pk := by
  unfold pkFromBase58 pkToBase58
  rw [parseNat_natToString]
  simp only [ZMod.val_lt pk, if_pos]
  rw [ZMod.natCast_rightInverse pk]

/-- Decoding a serialized signature recovers it. -/
theorem sigFromJSON_sigToJSON (sig : Signature) :
    Signature.fromJSON (Signature.toJSON sig) = .ok sig := by
  unfold Signature.fromJSON Signature.toJSON
  simp only [parseNat_natToString]
  rw [if_pos ⟨ZMod.val_lt sig.r, ZMod.val_lt sig.s⟩]
  rw [ZMod.natCast_rightInverse sig.r, ZMod.natCast_rightInverse sig.s]

/-! ## Helper lemmas: orchestration -/

/-- Signing a command with a successfully decoded private key succeeds and
produces the serialized legacy signature of its hash input. -/
theorem signUserCommand_ok (cmd : UserCommand) (skStr : String) (sk : PrivateKey)
    (net : Network) (hsk : privFromBase58 skStr = .ok sk) :
    signUserCommand cmd skStr net =
      .ok (Signature.toJSON (signLegacy (toInputLegacy cmd) sk net)) := by
  unfold signUserCommand
  rw [hsk]
  simp only [okBind, errBind, okMap, errMap, pureEq]

/-- The inner verification helper accepts the signature produced over the
same command by the matching private key. -/
theorem verifyUserCommand_roundtrip (cmd : UserCommand) (sk : PrivateKey)
    (net : Network) :
    verifyUserCommand cmd (Signature.toJSON (signLegacy (toInputLegacy cmd) sk net))
      (pkToBase58 (derivePublicKey sk)) net = .ok true := by
  unfold verifyUserCommand
  rw [sigFromJSON_sigToJSON]
  simp only [okBind]
  rw [pkFromBase58_pkToBase58]
  simp only [okBind, pureEq]
  rw [verifyLegacy_signLegacy]

/-- The inner verification helper fails whenever the signature or the public
key fails to decode. -/
theorem verifyUserCommand_error (cmd : UserCommand) (sigJ : SignatureJson)
    (pkStr : String) (net : Network)
    (h : (∃ e, Signature.fromJSON sigJ = .error e) ∨
         (∃ e, pkFromBase58 pkStr = .error e)) :
    ∃ e, verifyUserCommand cmd sigJ pkStr net = .error e := by
  unfold verifyUserCommand
  rcases h with ⟨e, he⟩ | ⟨e, he⟩
  · refine ⟨e, ?_⟩
    simp only [he, okBind, errBind, okMap, errMap, pureEq]
  · rcases hs : Signature.fromJSON sigJ with e' | sig
    · refine ⟨e', ?_⟩
      simp only [okBind, errBind, okMap, errMap, pureEq]
    · refine ⟨e, ?_⟩
      simp only [he, okBind, errBind, okMap, errMap, pureEq]

/-! ## Claim theorems -/

/-- C5: for every body, the body encoding appends exactly these chunks in
this order: the tag as 3 bits big-endian (bit 2, bit 1, bit 0 of the
enumeration code; `Payment = 0b000`, `StakeDelegation = 0b001`), the source
public key in its field-decomposed bit form, the receiver public key in the
same form, the fixed 64-bit legacy token identifier, the amount as 64 bits,
and a single `false` token-locked bit. -/
theorem bodyToInputLegacy_chunks (b : Body) :
    bodyToInputLegacy b =
      tagToInput b.tag ++ PublicKey.toInputLegacy b.source ++
        PublicKey.toInputLegacy b.receiver ++ HashInputLegacy.ofBits legacyTokenId ++
        HashInputLegacy.ofBits (toBitsLE 64 b.amount) ++ HashInputLegacy.ofBits [false] ∧
    (∀ t : Tag, tagToInput t =
      HashInputLegacy.ofBits [t.code.testBit 2, t.code.testBit 1, t.code.testBit 0]) ∧
    tagToInput Tag.payment = HashInputLegacy.ofBits [false, false, false] ∧
    tagToInput Tag.stakeDelegation = HashInputLegacy.ofBits [false, false, true] ∧
    legacyTokenId.length = 64 ∧
    (toBitsLE 64 b.amount).length = 64 := by
  refine ⟨?_, ?_, rfl, rfl, rfl, ?_⟩
  · simp [bodyToInputLegacy, HashInputLegacy.append, List.append_assoc]
  · intro t
    cases t <;> rfl
  · simp [toBitsLE]

/-- C6: for every common record, the common encoding appends exactly these
chunks in this order: the fee as 64 bits, the fixed legacy token identifier
(a 1-bit followed by 63 zero bits — the same constant the body uses), the
fee-payer public key in its bit form, the nonce as 32 bits, valid-until as
32 bits, and the memo in its fixed-length byte encoding. -/
theorem commonToInputLegacy_chunks (c : Common) :
    commonToInputLegacy c =
      HashInputLegacy.ofBits (toBitsLE 64 c.fee) ++ HashInputLegacy.ofBits legacyTokenId ++
        PublicKey.toInputLegacy c.feePayer ++ HashInputLegacy.ofBits (toBitsLE 32 c.nonce) ++
        HashInputLegacy.ofBits (toBitsLE 32 c.validUntil) ++
        HashInputLegacy.ofBits (Memo.toBits c.memo) ∧
    legacyTokenId = true :: List.replicate 63 false ∧
    legacyTokenId.length = 64 ∧
    (toBitsLE 64 c.fee).length = 64 ∧
    (toBitsLE 32 c.nonce).length = 32 ∧
    (toBitsLE 32 c.validUntil).length = 32 := by
  refine ⟨?_, rfl, rfl, ?_, ?_, ?_⟩
  · simp [commonToInputLegacy, HashInputLegacy.append, List.append_assoc]
  · simp [toBitsLE]
  · simp [toBitsLE]
  · simp [toBitsLE]

/-- C1 (counterexample): at a concrete user command, the final hash input is
not the body-encoding followed by the common-encoding. -/
theorem toInputLegacy_not_body_first :
    toInputLegacy ⟨⟨1, 3, 0, 0, []⟩, ⟨Tag.payment, 4, 5, 7⟩⟩ ≠
      HashInputLegacy.append
        (bodyToInputLegacy ⟨Tag.payment, 4, 5, 7⟩)
        (commonToInputLegacy ⟨1, 3, 0, 0, []⟩) := by
  decide

/-- C1 (amended): for every user command, the final hash input is the
body-encoding concatenated after the common-encoding — the common's chunks
come first in the flattened sequence, then the body's chunks. -/
theorem toInputLegacy_common_then_body (cmd : UserCommand) :
    toInputLegacy cmd =
      HashInputLegacy.append (commonToInputLegacy cmd.common) (bodyToInputLegacy cmd.body) ∧
    toInputLegacy cmd = commonToInputLegacy cmd.common ++ bodyToInputLegacy cmd.body :=
  ⟨rfl, rfl⟩

/-- C7: the string encoding produces, as a single bits chunk, the UTF-8
bytes of the string in order, each byte contributing its bits from bit 7
down to bit 0. -/
theorem stringToInput_bigEndian_bytes (s : String) :
    stringToInput s =
      HashInputLegacy.ofBits
        (((stringToBytes s).map fun byte =>
          [byte.testBit 7, byte.testBit 6, byte.testBit 5, byte.testBit 4,
           byte.testBit 3, byte.testBit 2, byte.testBit 1, byte.testBit 0]).flatten) := by
  have h : ∀ byte : Nat, (bytesToBits [byte]).reverse =
      [byte.testBit 7, byte.testBit 6, byte.testBit 5, byte.testBit 4,
       byte.testBit 3, byte.testBit 2, byte.testBit 1, byte.testBit 0] := by
    intro byte
    simp [bytesToBits, toBitsLE, List.range_succ]
  simp [stringToInput, h]

/-- C10: two user commands equal except for the tag (one payment, one stake
delegation) have different body encodings — they disagree at the 3-bit tag
chunk that leads the body encoding — and hence different final hash
inputs. -/
theorem payment_delegation_inputs_differ (c : Common) (src rcv : PublicKey) (amt : Nat) :
    (bodyToInputLegacy ⟨Tag.payment, src, rcv, amt⟩).head? =
      some (Chunk.bits [false, false, false]) ∧
    (bodyToInputLegacy ⟨Tag.stakeDelegation, src, rcv, amt⟩).head? =
      some (Chunk.bits [false, false, true]) ∧
    bodyToInputLegacy ⟨Tag.payment, src, rcv, amt⟩ ≠
      bodyToInputLegacy ⟨Tag.stakeDelegation, src, rcv, amt⟩ ∧
    toInputLegacy ⟨c, ⟨Tag.payment, src, rcv, amt⟩⟩ ≠
      toInputLegacy ⟨c, ⟨Tag.stakeDelegation, src, rcv, amt⟩⟩ := by
  have hne : bodyToInputLegacy ⟨Tag.payment, src, rcv, amt⟩ ≠
      bodyToInputLegacy ⟨Tag.stakeDelegation, src, rcv, amt⟩ := by
    simp [bodyToInputLegacy, tagToInput, HashInputLegacy.append,
      HashInputLegacy.ofBits, Tag.code]
  refine ⟨?_, ?_, hne, ?_⟩
  · simp [bodyToInputLegacy, tagToInput, HashInputLegacy.append,
      HashInputLegacy.ofBits, Tag.code]
  · simp [bodyToInputLegacy, tagToInput, HashInputLegacy.append,
      HashInputLegacy.ofBits, Tag.code]
  · intro h
    exact hne (List.append_cancel_left h)

/-- C2: for every valid triple, verifying the signature produced by signing
with a private key, against the public key derived from that private key and
the same network, returns `true` — for the payment, stake-delegation, and
string sign/verify pairs alike. -/
theorem sign_verify_roundtrip (skStr : String) (sk : PrivateKey) (net : Network)
    (hsk : privFromBase58 skStr = .ok sk) :
    (∀ (j : PaymentJson) (cmd : UserCommand), paymentFromJson j = .ok cmd →
      signPayment j skStr net =
        .ok (Signature.toJSON (signLegacy (toInputLegacy cmd) sk net)) ∧
      verifyPayment j (Signature.toJSON (signLegacy (toInputLegacy cmd) sk net))
        (pkToBase58 (derivePublicKey sk)) net = true) ∧
    (∀ (j : DelegationJson) (cmd : UserCommand), delegationFromJson j = .ok cmd →
      signStakeDelegation j skStr net =
        .ok (Signature.toJSON (signLegacy (toInputLegacy cmd) sk net)) ∧
      verifyStakeDelegation j (Signature.toJSON (signLegacy (toInputLegacy cmd) sk net))
        (pkToBase58 (derivePublicKey sk)) net = true) ∧
    (∀ s : String,
      signString s skStr net =
        .ok (Signature.toJSON (signLegacy (stringToInput s) sk net)) ∧
      verifyStringSignature s (Signature.toJSON (signLegacy (stringToInput s) sk net))
        (pkToBase58 (derivePublicKey sk)) net = true) := by
  refine ⟨?_, ?_, ?_⟩
  · intro j cmd hj
    constructor
    · unfold signPayment
      rw [hj]
      simp only [okBind]
      exact signUserCommand_ok cmd skStr sk net hsk
    · have hE : verifyPaymentE j
          (Signature.toJSON (signLegacy (toInputLegacy cmd) sk net))
          (pkToBase58 (derivePublicKey sk)) net = .ok true := by
        unfold verifyPaymentE
        rw [hj]
        simp only [okBind]
        exact verifyUserCommand_roundtrip cmd sk net
      unfold verifyPayment
      rw [hE]
  · intro j cmd hj
    constructor
    · unfold signStakeDelegation
      rw [hj]
      simp only [okBind]
      exact signUserCommand_ok cmd skStr sk net hsk
    · have hE : verifyStakeDelegationE j
          (Signature.toJSON (signLegacy (toInputLegacy cmd) sk net))
          (pkToBase58 (derivePublicKey sk)) net = .ok true := by
        unfold verifyStakeDelegationE
        rw [hj]
        simp only [okBind]
        exact verifyUserCommand_roundtrip cmd sk net
      unfold verifyStakeDelegation
      rw [hE]
  · intro s
    constructor
    · unfold signString
      rw [hsk]
      simp only [okBind, errBind, okMap, errMap, pureEq]
    · have hE : verifyStringSignatureE s
          (Signature.toJSON (signLegacy (stringToInput s) sk net))
          (pkToBase58 (derivePublicKey sk)) net = .ok true := by
        unfold verifyStringSignatureE
        rw [sigFromJSON_sigToJSON]
        simp only [okBind]
        rw [pkFromBase58_pkToBase58]
        simp only [okBind, pureEq]
        rw [verifyLegacy_signLegacy]
      unfold verifyStringSignature
      rw [hE]

/-- C3: the three public verification functions convert every internal
decode or validation failure — malformed command JSON, malformed signature
JSON, malformed public key — to the boolean result `false`; they never
propagate a failure to the caller. -/
theorem verify_never_raises :
    (∀ (j : PaymentJson) (sigJ : SignatureJson) (pkStr : String) (net : Network),
      ((∃ e, paymentFromJson j = .error e) ∨
       (∃ e, Signature.fromJSON sigJ = .error e) ∨
       (∃ e, pkFromBase58 pkStr = .error e)) →
      verifyPayment j sigJ pkStr net = false) ∧
    (∀ (j : DelegationJson) (sigJ : SignatureJson) (pkStr : String) (net : Network),
      ((∃ e, delegationFromJson j = .error e) ∨
       (∃ e, Signature.fromJSON sigJ = .error e) ∨
       (∃ e, pkFromBase58 pkStr = .error e)) →
      verifyStakeDelegation j sigJ pkStr net = false) ∧
    (∀ (s : String) (sigJ : SignatureJson) (pkStr : String) (net : Network),
      ((∃ e, Signature.fromJSON sigJ = .error e) ∨
       (∃ e, pkFromBase58 pkStr = .error e)) →
      verifyStringSignature s sigJ pkStr net = false) := by
  refine ⟨?_, ?_, ?_⟩
  · intro j sigJ pkStr net h
    have hE : ∃ e, verifyPaymentE j sigJ pkStr net = .error e := by
      unfold verifyPaymentE
      rcases h with ⟨e, he⟩ | h
      · refine ⟨e, ?_⟩
        simp only [he, okBind, errBind, okMap, errMap, pureEq]
      · rcases hj : paymentFromJson j with e' | cmd
        · refine ⟨e', ?_⟩
          simp only [okBind, errBind, okMap, errMap, pureEq]
        · obtain ⟨e, he⟩ := verifyUserCommand_error cmd sigJ pkStr net h
          refine ⟨e, ?_⟩
          simp only [okBind, he]
    obtain ⟨e, he⟩ := hE
    unfold verifyPayment
    rw [he]
  · intro j sigJ pkStr net h
    have hE : ∃ e, verifyStakeDelegationE j sigJ pkStr net = .error e := by
      unfold verifyStakeDelegationE
      rcases h with ⟨e, he⟩ | h
      · refine ⟨e, ?_⟩
        simp only [he, okBind, errBind, okMap, errMap, pureEq]
      · rcases hj : delegationFromJson j with e' | cmd
        · refine ⟨e', ?_⟩
          simp only [okBind, errBind, okMap, errMap, pureEq]
        · obtain ⟨e, he⟩ := verifyUserCommand_error cmd sigJ pkStr net h
          refine ⟨e, ?_⟩
          simp only [okBind, he]
    obtain ⟨e, he⟩ := hE
    unfold verifyStakeDelegation
    rw [he]
  · intro s sigJ pkStr net h
    have hE : ∃ e, verifyStringSignatureE s sigJ pkStr net = .error e := by
      unfold verifyStringSignatureE
      rcases h with ⟨e, he⟩ | ⟨e, he⟩
      · refine ⟨e, ?_⟩
        simp only [he, okBind, errBind, okMap, errMap, pureEq]
      · rcases hs : Signature.fromJSON sigJ with e' | sig
        · refine ⟨e', ?_⟩
          simp only [okBind, errBind, okMap, errMap, pureEq]
        · refine ⟨e, ?_⟩
          simp only [he, okBind, errBind, okMap, errMap, pureEq]
    obtain ⟨e, he⟩ := hE
    unfold verifyStringSignature
    rw [he]

/-- C4: delegation translation always sets the amount to zero, regardless of
any extraneous or absent amount field in the input JSON; two inputs
identical except for that field yield identical commands, identical
encodings, and identical signatures for the same key and network. -/
theorem delegation_amount_invariant (c : CommonJson) (d nd : String)
    (a1 a2 : Option String) :
    delegationFromJson ⟨c, ⟨d, nd, a1⟩⟩ = delegationFromJson ⟨c, ⟨d, nd, a2⟩⟩ ∧
    (∀ cmd, delegationFromJson ⟨c, ⟨d, nd, a1⟩⟩ = .ok cmd → cmd.body.amount = 0) ∧
    (∀ cmd1 cmd2, delegationFromJson ⟨c, ⟨d, nd, a1⟩⟩ = .ok cmd1 →
      delegationFromJson ⟨c, ⟨d, nd, a2⟩⟩ = .ok cmd2 →
      toInputLegacy cmd1 = toInputLegacy cmd2) ∧
    (∀ (skStr : String) (net : Network),
      signStakeDelegation ⟨c, ⟨d, nd, a1⟩⟩ skStr net =
        signStakeDelegation ⟨c, ⟨d, nd, a2⟩⟩ skStr net) := by
  have heq : delegationFromJson ⟨c, ⟨d, nd, a1⟩⟩ = delegationFromJson ⟨c, ⟨d, nd, a2⟩⟩ := rfl
  refine ⟨heq, ?_, ?_, fun skStr net => rfl⟩
  · intro cmd h
    unfold delegationFromJson at h
    rcases hc : commonFromJson c with e | com <;> rw [hc] at h <;>
      simp only [okBind, errBind, okMap, errMap, pureEq] at h
    · exact Except.noConfusion h
    · rcases hd : pkFromBase58 d with e | pkd <;> rw [hd] at h <;>
        simp only [okBind, errBind, okMap, errMap, pureEq] at h
      · exact Except.noConfusion h
      · rcases hn : pkFromBase58 nd with e | pknd <;> rw [hn] at h <;>
          simp only [okBind, errBind, okMap, errMap, pureEq] at h
        · exact Except.noConfusion h
        · injection h with h
          subst h
          rfl
  · intro cmd1 cmd2 h1 h2
    rw [heq, h2] at h1
    injection h1 with h1
    rw [h1]

/-- C8: the tag type has exactly the two variants `Payment` and
`StakeDelegation` — the encoding's domain admits no other value — and the
public JSON translations only ever produce the tag `Payment` for payments
and `StakeDelegation` for delegations. -/
theorem tag_encoding_closed :
    (∀ t : Tag, t = Tag.payment ∨ t = Tag.stakeDelegation) ∧
    (∀ (j : PaymentJson) (cmd : UserCommand), paymentFromJson j = .ok cmd →
      cmd.body.tag = Tag.payment) ∧
    (∀ (j : DelegationJson) (cmd : UserCommand), delegationFromJson j = .ok cmd →
      cmd.body.tag = Tag.stakeDelegation) := by
  refine ⟨?_, ?_, ?_⟩
  · intro t
    cases t
    · exact Or.inl rfl
    · exact Or.inr rfl
  · intro j cmd h
    unfold paymentFromJson at h
    rcases hc : commonFromJson j.common with e | com <;> rw [hc] at h <;>
      simp only [okBind, errBind, okMap, errMap, pureEq] at h
    · exact Except.noConfusion h
    · rcases hs : pkFromBase58 j.body.source with e | src <;> rw [hs] at h <;>
        simp only [okBind, errBind, okMap, errMap, pureEq] at h
      · exact Except.noConfusion h
      · rcases hr : pkFromBase58 j.body.receiver with e | rcv <;> rw [hr] at h <;>
          simp only [okBind, errBind, okMap, errMap, pureEq] at h
        · exact Except.noConfusion h
        · rcases ha : parseUInt 64 j.body.amount with e | amt <;> rw [ha] at h <;>
            simp only [okBind, errBind, okMap, errMap, pureEq] at h
          · exact Except.noConfusion h
          · injection h with h
            subst h
            rfl
  · intro j cmd h
    unfold delegationFromJson at h
    rcases hc : commonFromJson j.common with e | com <;> rw [hc] at h <;>
      simp only [okBind, errBind, okMap, errMap, pureEq] at h
    · exact Except.noConfusion h
    · rcases hd : pkFromBase58 j.body.delegator with e | pkd <;> rw [hd] at h <;>
        simp only [okBind, errBind, okMap, errMap, pureEq] at h
      · exact Except.noConfusion h
      · rcases hn : pkFromBase58 j.body.newDelegate with e | pknd <;> rw [hn] at h <;>
          simp only [okBind, errBind, okMap, errMap, pureEq] at h
        · exact Except.noConfusion h
        · injection h with h
          subst h
          rfl

/-- C9: the signing operations propagate the failure of decoding an invalid
private key string to the caller — `signPayment` and `signStakeDelegation`
whenever their JSON translation itself succeeded, and `signString`
unconditionally. -/
theorem sign_propagates_invalid_key (skStr : String) (e : Err) (net : Network)
    (hsk : privFromBase58 skStr = .error e) :
    (∀ (j : PaymentJson) (cmd : UserCommand), paymentFromJson j = .ok cmd →
      signPayment j skStr net = .error e) ∧
    (∀ (j : DelegationJson) (cmd : UserCommand), delegationFromJson j = .ok cmd →
      signStakeDelegation j skStr net = .error e) ∧
    (∀ s : String, signString s skStr net = .error e) := by
  have hcmd : ∀ cmd : UserCommand, signUserCommand cmd skStr net = .error e := by
    intro cmd
    unfold signUserCommand
    simp only [hsk, okBind, errBind, okMap, errMap, pureEq]
  refine ⟨?_, ?_, ?_⟩
  · intro j cmd hj
    unfold signPayment
    rw [hj]
    simp only [okBind]
    exact hcmd cmd
  · intro j cmd hj
    unfold signStakeDelegation
    rw [hj]
    simp only [okBind]
    exact hcmd cmd
  · intro s
    unfold signString
    simp only [hsk, okBind, errBind, okMap, errMap, pureEq]

/-! ## Witnesses -/

/-- Witness for C2: a concrete payment signed with the key decoded from
`"3"` on testnet verifies against the derived public key. -/
theorem sign_verify_roundtrip_witness :
    signPayment ⟨⟨"1", "2", "0", "0", []⟩, ⟨"4", "5", "7"⟩⟩ "3" Network.testnet =
      .ok (Signature.toJSON (signLegacy (toInputLegacy
        ⟨⟨1, 2, 0, 0, 1 :: 0 :: List.replicate 32 0⟩, ⟨Tag.payment, 4, 5, 7⟩⟩)
        3 Network.testnet)) ∧
    verifyPayment ⟨⟨"1", "2", "0", "0", []⟩, ⟨"4", "5", "7"⟩⟩
      (Signature.toJSON (signLegacy (toInputLegacy
        ⟨⟨1, 2, 0, 0, 1 :: 0 :: List.replicate 32 0⟩, ⟨Tag.payment, 4, 5, 7⟩⟩)
        3 Network.testnet))
      (pkToBase58 (derivePublicKey 3)) Network.testnet = true :=
  (sign_verify_roundtrip "3" 3 Network.testnet rfl).1
    ⟨⟨"1", "2", "0", "0", []⟩, ⟨"4", "5", "7"⟩⟩
    ⟨⟨1, 2, 0, 0, 1 :: 0 :: List.replicate 32 0⟩, ⟨Tag.payment, 4, 5, 7⟩⟩ rfl

/-- Witness for C3: verification of a well-formed payment against a
malformed public key string returns `false`. -/
theorem verify_never_raises_witness :
    verifyPayment ⟨⟨"1", "2", "0", "0", []⟩, ⟨"4", "5", "7"⟩⟩ ⟨"0", "0"⟩ "x"
      Network.mainnet = false :=
  verify_never_raises.1 ⟨⟨"1", "2", "0", "0", []⟩, ⟨"4", "5", "7"⟩⟩ ⟨"0", "0"⟩ "x"
    Network.mainnet (Or.inr (Or.inr ⟨Err.malformedKey, rfl⟩))

/-- Witness for C4: a concrete delegation with an extraneous amount field
translates identically to the same delegation without it, and the resulting
amount is zero. -/
theorem delegation_amount_invariant_witness :
    delegationFromJson ⟨⟨"1", "2", "0", "0", []⟩, ⟨"4", "5", some "999"⟩⟩ =
      delegationFromJson ⟨⟨"1", "2", "0", "0", []⟩, ⟨"4", "5", none⟩⟩ ∧
    (⟨⟨1, 2, 0, 0, 1 :: 0 :: List.replicate 32 0⟩, ⟨Tag.stakeDelegation, 4, 5, 0⟩⟩ :
      UserCommand).body.amount = 0 :=
  ⟨(delegation_amount_invariant ⟨"1", "2", "0", "0", []⟩ "4" "5" (some "999") none).1,
   (delegation_amount_invariant ⟨"1", "2", "0", "0", []⟩ "4" "5" (some "999") none).2.1
     ⟨⟨1, 2, 0, 0, 1 :: 0 :: List.replicate 32 0⟩, ⟨Tag.stakeDelegation, 4, 5, 0⟩⟩ rfl⟩

/-- Witness for C8: concrete translations produce the tags `Payment` and
`StakeDelegation` respectively. -/
theorem tag_encoding_closed_witness :
    (⟨⟨1, 2, 0, 0, 1 :: 0 :: List.replicate 32 0⟩, ⟨Tag.payment, 4, 5, 7⟩⟩ :
      UserCommand).body.tag = Tag.payment ∧
    (⟨⟨1, 2, 0, 0, 1 :: 0 :: List.replicate 32 0⟩, ⟨Tag.stakeDelegation, 4, 5, 0⟩⟩ :
      UserCommand).body.tag = Tag.stakeDelegation :=
  ⟨tag_encoding_closed.2.1 ⟨⟨"1", "2", "0", "0", []⟩, ⟨"4", "5", "7"⟩⟩ _ rfl,
   tag_encoding_closed.2.2 ⟨⟨"1", "2", "0", "0", []⟩, ⟨"4", "5", none⟩⟩ _ rfl⟩

/-- Witness for C9: signing a string or a concrete well-formed payment with
the malformed private key string `"zz"` fails with `MalformedKey`. -/
theorem sign_propagates_invalid_key_witness :
    signString "hello" "zz" Network.mainnet = .error Err.malformedKey ∧
    signPayment ⟨⟨"1", "2", "0", "0", []⟩, ⟨"4", "5", "7"⟩⟩ "zz" Network.mainnet =
      .error Err.malformedKey :=
  ⟨(sign_propagates_invalid_key "zz" Err.malformedKey Network.mainnet rfl).2.2 "hello",
   (sign_propagates_invalid_key "zz" Err.malformedKey Network.mainnet rfl).1
     ⟨⟨"1", "2", "0", "0", []⟩, ⟨"4", "5", "7"⟩⟩
     ⟨⟨1, 2, 0, 0, 1 :: 0 :: List.replicate 32 0⟩, ⟨Tag.payment, 4, 5, 7⟩⟩ rfl⟩

end SignLegacy
